import Mathlib

/-!
Verification of the SHL catalog scraper (`src/scripts/scrapper.py`).

The script is a paginated fetch loop (`scrape_individual_tests`) over a
bounded-retry page fetcher (`fetch_page`), a per-row field extraction, and
two output serializations (JSON and CSV).  We embed the script shallowly:

* The network is an oracle.  For `fetch_page` the oracle maps the attempt
  index to `some text` (a successful GET whose `raise_for_status` passed)
  or `none` (a `RequestException`).  For the walk the oracle `site` maps a
  pagination offset to the parsed page obtained for that offset, or `none`
  when `fetch_page` yielded nothing usable (`if not html`).
* HTML selection results are pre-computed into structures: a `Row` records
  exactly the pieces of markup `scrape_individual_tests` reads from one
  `tr[data-entity-id]` row, and a `Page` records the selected rows plus
  whether the next-page control matched.
* Python exceptions that the script does not catch (missing title link,
  missing `href`, fewer than two general-info columns) are modelled by
  `Option` / the `WalkResult.err` outcome.
* The unbounded `while True` loop is modelled with explicit fuel; running
  out of fuel (`WalkResult.timeout`) means the loop was still running
  after that many iterations.
-/

/-- `BASE_URL = "https://www.shl.com"` from the script. -/
def BASE_URL : String := "https://www.shl.com"

/-- `CATALOG_URL = f"{BASE_URL}/products/product-catalog/"` from the script. -/
def CATALOG_URL : String := BASE_URL ++ "/products/product-catalog/"

/-- The page URL built at the top of the loop:
`f"{CATALOG_URL}?start={start}&type=1"`. -/
def pageUrl (start : Nat) : String :=
  CATALOG_URL ++ "?start=" ++ toString start ++ "&type=1"

/-- Characters allowed in a URL scheme after the initial letter
(`urllib.parse` accepts alphanumerics and `+`, `-`, `.`). -/
def isSchemeChar (c : Char) : Bool :=
  c.isAlphanum || c = '+' || c = '-' || c = '.'

/-- Scan for the `:` that ends a scheme, allowing only scheme characters
before it. -/
def hasSchemeAux : List Char → Bool
  | [] => false
  | c :: cs => if c = ':' then true else if isSchemeChar c then hasSchemeAux cs else false

/-- A character list starts with a scheme: a letter, then scheme
characters, then `:`. -/
def isAbsUrlAux : List Char → Bool
  | [] => false
  | c :: cs => c.isAlpha && hasSchemeAux cs

/-- A string is a syntactically absolute URL when it starts with a scheme:
a letter, then scheme characters, then `:`. -/
def isAbsoluteUrl (s : String) : Bool :=
  isAbsUrlAux s.data

/-- The whitespace set of Python's `str.strip()` with no arguments
(restricted to its ASCII members, which is all the markup at hand can
produce after parsing). -/
def isPySpace (c : Char) : Bool :=
  c = ' ' || c = '\t' || c = '\n' || c = '\r' || c = '\x0b' || c = '\x0c'

/-- Python's `str.strip()`: drop leading and trailing whitespace. -/
def pyStrip (s : String) : String :=
  ⟨List.reverse (List.dropWhile isPySpace
    (List.reverse (List.dropWhile isPySpace s.data)))⟩

/-- Character-list prefix test for `strStartsWith`. -/
def startsWithAux : List Char → List Char → Bool
  | _, [] => true
  | [], _ :: _ => false
  | c :: cs, d :: ds => c = d && startsWithAux cs ds

/-- String prefix test (structural stand-in for `String.startsWith`). -/
def strStartsWith (s p : String) : Bool :=
  startsWithAux s.data p.data

/-- Modelled from the library behavior of `urllib.parse.urljoin` as used by
the script with the fixed absolute base `BASE_URL`: an empty href yields the
base, a network-path reference (`//…`) inherits the base scheme, an href
carrying its own scheme is kept (the same-scheme merge subtlety of
`urljoin` is flattened to this, which agrees on every href the claims
touch), an absolute path, a fragment or a query is appended to the
authority, and a relative path is resolved against the base's empty
path. -/
def urljoin (base url : String) : String :=
  if url = "" then base
  else if strStartsWith url "//" then "https:" ++ url
  else if isAbsoluteUrl url then url
  else if strStartsWith url "/" then base ++ url
  else if strStartsWith url "#" || strStartsWith url "?" then base ++ url
  else base ++ "/" ++ url

/-- The title link element of a row (`td.custom__table-heading__title a`):
its text content and its optional `href` attribute (`title_tag["href"]`
raises when absent). -/
structure TitleTag where
  text : String
  href : Option String
deriving DecidableEq

/-- One `td.custom__table-heading__general` cell; `hasYes` records whether
`select_one(".-yes")` matches inside it. -/
structure GeneralCol where
  hasYes : Bool
deriving DecidableEq

/-- One `tr[data-entity-id]` row, holding exactly the selections the script
performs on it: `row.get("data-entity-id")`, the optional title link, the
general-info cells in document order, and the raw (untrimmed) texts of the
`.product-catalogue__key` elements in document order. -/
structure Row where
  entityId : Option String
  titleTag : Option TitleTag
  generalCols : List GeneralCol
  keyTags : List String
deriving DecidableEq

/-- One parsed catalog page: the rows matching `tr[data-entity-id]` and
whether `li.pagination__item.-next a` matched. -/
structure Page where
  rows : List Row
  nextBtn : Bool
deriving DecidableEq

/-- The dictionary appended to `results` for one row. -/
structure Record where
  entityId : Option String
  name : String
  url : String
  remoteTesting : Bool
  adaptiveIrt : Bool
  testTypes : List String
deriving DecidableEq

/-- The body of the `for row in rows` loop: build one record, or `none`
when the script would raise (no title link, no `href` on it, or fewer than
two general-info cells for `cols[0]` / `cols[1]`). -/
def extractRecord (row : Row) : Option Record :=
  match row.titleTag with
  | none => none
  | some t =>
    match t.href with
    | none => none
    | some href =>
      match row.generalCols with
      | c0 :: c1 :: _ =>
        some { entityId := row.entityId
               name := pyStrip t.text
               url := urljoin BASE_URL href
               remoteTesting := c0.hasYes
               adaptiveIrt := c1.hasYes
               testTypes := row.keyTags.map pyStrip }
      | _ => none

/-- Run `extractRecord` over a page's rows in order; `none` as soon as one
row raises (the exception aborts the whole loop, so later rows and earlier
partial appends are irrelevant). -/
def extractAll : List Row → Option (List Record)
  | [] => some []
  | r :: rs =>
    match extractRecord r with
    | none => none
    | some rec =>
      match extractAll rs with
      | none => none
      | some recs => some (rec :: recs)

/-- The `for attempt in range(retries)` loop of `fetch_page`: try attempt
`attempt`, return the text on success, otherwise sleep and continue; `none`
with the attempt count once the range is exhausted.  The second component
counts the `session.get` calls made. -/
def fetchAux (net : Nat → Option String) : Nat → Nat → Option String × Nat
  | _, 0 => (none, 0)
  | attempt, r + 1 =>
    match net attempt with
    | some text => (some text, 1)
    | none =>
      let p := fetchAux net (attempt + 1) r
      (p.1, p.2 + 1)

/-- `fetch_page(url, retries=3)`: the result and the number of retrieval
attempts made, for a network oracle giving each attempt's outcome. -/
def fetch_page (net : Nat → Option String) (retries : Nat := 3) : Option String × Nat :=
  fetchAux net 0 retries

/-- The number of consecutive failed attempts from attempt `i` on, counted
up to the bound `b` (the retry budget caps how many failures the script can
observe). -/
def consecFailures (net : Nat → Option String) : Nat → Nat → Nat
  | _, 0 => 0
  | i, b + 1 =>
    match net i with
    | some _ => 0
    | none => consecFailures net (i + 1) b + 1

/-- Outcome of `scrape_individual_tests` under fuel: `ok` is a normal
return of the accumulated records, `err` is an uncaught extraction
exception propagating out of the function, `timeout` means the loop was
still running when the fuel ran out. -/
inductive WalkResult where
  | ok (records : List Record)
  | err
  | timeout
deriving DecidableEq

/-- The `while True` loop of `scrape_individual_tests`, one constructor
case per iteration.  `site start` is the parsed page for offset `start`
(`none` when `fetch_page` failed or returned falsy markup, which the
script skips after `start += 12`).  The second component is the list of
offsets visited, in order. -/
def scrapeAux (site : Nat → Option Page) : Nat → Nat → List Record → WalkResult × List Nat
  | 0, _, _ => (WalkResult.timeout, [])
  | fuel + 1, start, acc =>
    match site start with
    | none =>
      let p := scrapeAux site fuel (start + 12) acc
      (p.1, start :: p.2)
    | some page =>
      if page.rows = [] then (WalkResult.ok acc, [start])
      else
        match extractAll page.rows with
        | none => (WalkResult.err, [start])
        | some recs =>
          if page.nextBtn then
            let p := scrapeAux site fuel (start + 12) (acc ++ recs)
            (p.1, start :: p.2)
          else (WalkResult.ok (acc ++ recs), [start])

/-- `scrape_individual_tests()`: start at offset 0 with an empty result
list. -/
def scrape_individual_tests (site : Nat → Option Page) (fuel : Nat) : WalkResult × List Nat :=
  scrapeAux site fuel 0 []

/-- JSON values, at the structural level handed to `json.dump` (the
textual rendering with `indent=2, ensure_ascii=False` and its reparsing
are the serialization library's own round trip). -/
inductive J where
  | str (s : String)
  | bool (b : Bool)
  | null
  | arr (elems : List J)
  | obj (fields : List (String × J))

/-- The JSON value for one record: the dict literal appended to `results`,
with `entityId` possibly `None` (Python `row.get` returns `None` when the
attribute is absent and `json.dump` writes it as `null`). -/
def recordToJ (r : Record) : J :=
  J.obj [ ("entityId", match r.entityId with | some s => J.str s | none => J.null)
        , ("name", J.str r.name)
        , ("url", J.str r.url)
        , ("remoteTesting", J.bool r.remoteTesting)
        , ("adaptiveIrt", J.bool r.adaptiveIrt)
        , ("testTypes", J.arr (r.testTypes.map J.str)) ]

/-- The document output: `json.dump(data, …)` writes the record list as a
JSON array. -/
def encodeDoc (data : List Record) : J :=
  J.arr (data.map recordToJ)

/-- Decode the `entityId` field back: a string or `null`. -/
def jToEntityId : J → Option (Option String)
  | J.str s => some (some s)
  | J.null => some none
  | _ => none

/-- Decode a JSON array of strings back into the string list. -/
def jStrs : List J → Option (List String)
  | [] => some []
  | J.str s :: rest =>
    match jStrs rest with
    | some l => some (s :: l)
    | none => none
  | _ => none

/-- Decode one record object (fields in the schema order of the script's
dict literal). -/
def jToRecord : J → Option Record
  | J.obj [ ("entityId", eid)
          , ("name", J.str n)
          , ("url", J.str u)
          , ("remoteTesting", J.bool rt)
          , ("adaptiveIrt", J.bool ai)
          , ("testTypes", J.arr ts) ] =>
    match jToEntityId eid, jStrs ts with
    | some e, some tys => some ⟨e, n, u, rt, ai, tys⟩
    | _, _ => none
  | _ => none

/-- Decode each element of a JSON array of record objects. -/
def jRecords : List J → Option (List Record)
  | [] => some []
  | j :: rest =>
    match jToRecord j with
    | none => none
    | some r =>
      match jRecords rest with
      | some l => some (r :: l)
      | none => none

/-- Decode the document output back into a record list. -/
def decodeDoc : J → Option (List Record)
  | J.arr js => jRecords js
  | _ => none

/-- One row of the CSV output: the same fields, with `testTypes` already
flattened by `df["testTypes"].apply(lambda x: ",".join(x))`. -/
structure CsvRow where
  entityId : Option String
  name : String
  url : String
  remoteTesting : Bool
  adaptiveIrt : Bool
  testTypes : String
deriving DecidableEq

/-- The per-record column transform of the CSV writer: keep every field
and join `testTypes` with commas. -/
def recordToCsv (r : Record) : CsvRow :=
  { entityId := r.entityId
    name := r.name
    url := r.url
    remoteTesting := r.remoteTesting
    adaptiveIrt := r.adaptiveIrt
    testTypes := String.intercalate "," r.testTypes }

/-- The table output: `pd.DataFrame(data)` keeps one row per record in
order; the `apply` rewrites only the `testTypes` column. -/
def tableOutput (data : List Record) : List CsvRow :=
  data.map recordToCsv


/-! ## Concrete instances used to exercise the theorems -/

/-- A network where attempt 1 succeeds after one failure. -/
def c3net : Nat → Option String := fun i => if i = 1 then some "page" else none

/-- A site whose every fetch fails. -/
def c4site : Nat → Option Page := fun _ => none

/-- A site whose every page parses but has zero matching rows. -/
def c5site : Nat → Option Page := fun _ => some ⟨[], false⟩

/-- A permanently failing site. -/
def c10site : Nat → Option Page := fun _ => none

/-- A well-formed row whose first capability cell carries the positive
marker and whose second does not. -/
def c7row : Row := ⟨some "7", some ⟨"Sample", some "/s"⟩, [⟨true⟩, ⟨false⟩], []⟩

/-- A row listing the test-type tags A, B, A in document order. -/
def c8row : Row :=
  ⟨some "8", some ⟨"Sample", some "/s"⟩, [⟨false⟩, ⟨true⟩], ["A", "B", "A"]⟩

/-- The record extracted from `c8row`. -/
def c8rec : Record :=
  ⟨some "8", "Sample", "https://www.shl.com/s", false, true, ["A", "B", "A"]⟩

/-- A one-record result set for exercising the output writer. -/
def c9data : List Record :=
  [⟨none, "Verify", "https://www.shl.com/v", true, false, ["A", "B"]⟩]

/-- A row whose title link text is whitespace only. -/
def blankTitleRow : Row := ⟨some "1", some ⟨"   ", some "/x"⟩, [⟨false⟩, ⟨false⟩], []⟩

/-- A one-page site whose only row has a whitespace-only title. -/
def blankTitleSite : Nat → Option Page :=
  fun n => if n = 0 then some ⟨[blankTitleRow], false⟩ else none

/-- The record the walk produces from `blankTitleRow`: its name is empty. -/
def blankTitleRec : Record := ⟨some "1", "", "https://www.shl.com/x", false, false, []⟩

/-- A well-formed row with a non-blank title. -/
def c1row : Row :=
  ⟨some "11", some ⟨" Verify ", some "/product-catalog/view/verify/"⟩, [⟨true⟩, ⟨true⟩], ["K"]⟩

/-- A one-page site holding only `c1row`. -/
def c1site : Nat → Option Page :=
  fun n => if n = 0 then some ⟨[c1row], false⟩ else none

/-- The record extracted from `c1row`. -/
def c1rec : Record :=
  ⟨some "11", "Verify", "https://www.shl.com/product-catalog/view/verify/", true, true, ["K"]⟩

/-- First row of the two-row single-page scenario. -/
def c2row1 : Row := ⟨some "21", some ⟨"Alpha", some "/a"⟩, [⟨true⟩, ⟨false⟩], []⟩

/-- Second row of the two-row single-page scenario. -/
def c2row2 : Row := ⟨some "22", some ⟨"Beta", some "/b"⟩, [⟨false⟩, ⟨true⟩], ["K"]⟩

/-- The record extracted from `c2row1`. -/
def c2rec1 : Record := ⟨some "21", "Alpha", "https://www.shl.com/a", true, false, []⟩

/-- The record extracted from `c2row2`. -/
def c2rec2 : Record := ⟨some "22", "Beta", "https://www.shl.com/b", false, true, ["K"]⟩

/-- A catalog whose offset-0 page has exactly two rows and no next-page
control, and whose fetch fails at every other offset (so no zero-row page
is ever observable beyond offset 0). -/
def c2site : Nat → Option Page :=
  fun n => if n = 0 then some ⟨[c2row1, c2row2], false⟩ else none

/-- A row with the title cell and link present but no general-info cells. -/
def noColsRow : Row := ⟨some "61", some ⟨"Gamma", some "/g"⟩, [], []⟩

/-- A site whose first page contains only the malformed `noColsRow`. -/
def c6site : Nat → Option Page :=
  fun n => if n = 0 then some ⟨[noColsRow], true⟩ else none

/-- A site whose first fetch fails. -/
def c6failSite : Nat → Option Page := fun _ => none

/-! ## Small-step equations for the fetcher and the walk loop -/

theorem fetchAux_zero (net : Nat → Option String) (i : Nat) :
    fetchAux net i 0 = (none, 0) := rfl

theorem fetchAux_some (net : Nat → Option String) (i b : Nat) (t : String)
    (hn : net i = some t) : fetchAux net i (b + 1) = (some t, 1) := by
  simp [fetchAux, hn]

theorem fetchAux_none (net : Nat → Option String) (i b : Nat)
    (hn : net i = none) :
    fetchAux net i (b + 1) =
      ((fetchAux net (i + 1) b).1, (fetchAux net (i + 1) b).2 + 1) := by
  simp [fetchAux, hn]

theorem consecFailures_zero (net : Nat → Option String) (i : Nat) :
    consecFailures net i 0 = 0 := rfl

theorem consecFailures_some (net : Nat → Option String) (i b : Nat) (t : String)
    (hn : net i = some t) : consecFailures net i (b + 1) = 0 := by
  simp [consecFailures, hn]

theorem consecFailures_none (net : Nat → Option String) (i b : Nat)
    (hn : net i = none) :
    consecFailures net i (b + 1) = consecFailures net (i + 1) b + 1 := by
  simp [consecFailures, hn]

theorem scrapeAux_zero (site : Nat → Option Page) (start : Nat) (acc : List Record) :
    scrapeAux site 0 start acc = (WalkResult.timeout, []) := rfl

theorem scrapeAux_skip (site : Nat → Option Page) (fuel start : Nat) (acc : List Record)
    (hn : site start = none) :
    scrapeAux site (fuel + 1) start acc =
      ((scrapeAux site fuel (start + 12) acc).1,
        start :: (scrapeAux site fuel (start + 12) acc).2) := by
  simp [scrapeAux, hn]

theorem scrapeAux_empty (site : Nat → Option Page) (fuel start : Nat) (acc : List Record)
    (page : Page) (hp : site start = some page) (hr : page.rows = []) :
    scrapeAux site (fuel + 1) start acc = (WalkResult.ok acc, [start]) := by
  simp [scrapeAux, hp, hr]

theorem scrapeAux_err (site : Nat → Option Page) (fuel start : Nat) (acc : List Record)
    (page : Page) (hp : site start = some page) (hr : page.rows ≠ [])
    (he : extractAll page.rows = none) :
    scrapeAux site (fuel + 1) start acc = (WalkResult.err, [start]) := by
  simp [scrapeAux, hp, hr, he]

theorem scrapeAux_next (site : Nat → Option Page) (fuel start : Nat) (acc : List Record)
    (page : Page) (recs : List Record) (hp : site start = some page)
    (hr : page.rows ≠ []) (he : extractAll page.rows = some recs)
    (hb : page.nextBtn = true) :
    scrapeAux site (fuel + 1) start acc =
      ((scrapeAux site fuel (start + 12) (acc ++ recs)).1,
        start :: (scrapeAux site fuel (start + 12) (acc ++ recs)).2) := by
  simp [scrapeAux, hp, hr, he, hb]

theorem scrapeAux_last (site : Nat → Option Page) (fuel start : Nat) (acc : List Record)
    (page : Page) (recs : List Record) (hp : site start = some page)
    (hr : page.rows ≠ []) (he : extractAll page.rows = some recs)
    (hb : page.nextBtn = false) :
    scrapeAux site (fuel + 1) start acc = (WalkResult.ok (acc ++ recs), [start]) := by
  simp [scrapeAux, hp, hr, he, hb]

/-! ## URL absoluteness -/

theorem hasSchemeAux_append (l1 l2 : List Char) (h : hasSchemeAux l1 = true) :
    hasSchemeAux (l1 ++ l2) = true := by
  induction l1 with
  | nil => simp [hasSchemeAux] at h
  | cons c cs ih =>
    rw [List.cons_append]
    unfold hasSchemeAux at h ⊢
    by_cases h1 : c = ':'
    · rw [if_pos h1]
    · rw [if_neg h1] at h ⊢
      by_cases h2 : isSchemeChar c = true
      · rw [if_pos h2] at h ⊢
        exact ih h
      · rw [if_neg h2] at h
        exact absurd h (by simp)

theorem isAbsoluteUrl_append (p s : String) (h : isAbsoluteUrl p = true) :
    isAbsoluteUrl (p ++ s) = true := by
  unfold isAbsoluteUrl at h ⊢
  rw [String.data_append]
  cases hp : p.data with
  | nil => rw [hp] at h; simp [isAbsUrlAux] at h
  | cons c cs =>
    rw [hp] at h
    rw [List.cons_append]
    unfold isAbsUrlAux at h ⊢
    simp only [Bool.and_eq_true] at h ⊢
    exact ⟨h.1, hasSchemeAux_append cs s.data h.2⟩

theorem isAbsoluteUrl_BASE_URL : isAbsoluteUrl BASE_URL = true := by decide

theorem isAbsoluteUrl_urljoin (u : String) :
    isAbsoluteUrl (urljoin BASE_URL u) = true := by
  unfold urljoin
  split_ifs with h1 h2 h3 h4 h5
  · exact isAbsoluteUrl_BASE_URL
  · exact isAbsoluteUrl_append "https:" u (by decide)
  · exact h3
  · exact isAbsoluteUrl_append BASE_URL u isAbsoluteUrl_BASE_URL
  · exact isAbsoluteUrl_append BASE_URL u isAbsoluteUrl_BASE_URL
  · exact isAbsoluteUrl_append (BASE_URL ++ "/") u
      (isAbsoluteUrl_append BASE_URL "/" isAbsoluteUrl_BASE_URL)

/-! ## Fetcher behavior -/

theorem fetchAux_attempts (net : Nat → Option String) :
    ∀ b i, (fetchAux net i b).2 = min (consecFailures net i b + 1) b := by
  intro b
  induction b with
  | zero => intro i; simp [fetchAux_zero, consecFailures_zero]
  | succ b ih =>
    intro i
    cases hn : net i with
    | some t =>
      rw [fetchAux_some net i b t hn, consecFailures_some net i b t hn]
      simp
    | none =>
      rw [fetchAux_none net i b hn, consecFailures_none net i b hn]
      simp only []
      rw [ih (i + 1)]
      omega

theorem fetchAux_fail (net : Nat → Option String) :
    ∀ b i, consecFailures net i b = b → (fetchAux net i b).1 = none := by
  intro b
  induction b with
  | zero => intro i _; simp [fetchAux_zero]
  | succ b ih =>
    intro i h
    cases hn : net i with
    | some t =>
      rw [consecFailures_some net i b t hn] at h
      omega
    | none =>
      rw [consecFailures_none net i b hn] at h
      rw [fetchAux_none net i b hn]
      exact ih (i + 1) (by omega)

theorem fetchAux_first_success (net : Nat → Option String) :
    ∀ b i, consecFailures net i b < b →
      (fetchAux net i b).1 = net (i + consecFailures net i b) := by
  intro b
  induction b with
  | zero => intro i h; omega
  | succ b ih =>
    intro i h
    cases hn : net i with
    | some t =>
      rw [consecFailures_some net i b t hn]
      rw [fetchAux_some net i b t hn]
      simpa using hn.symm
    | none =>
      rw [consecFailures_none net i b hn] at h ⊢
      rw [fetchAux_none net i b hn]
      simp only []
      rw [ih (i + 1) (by omega)]
      congr 1
      omega

/-! ## Walk lemmas -/

theorem scrapeAux_vis_get? (site : Nat → Option Page) :
    ∀ fuel start acc i, i < ((scrapeAux site fuel start acc).2).length →
      ((scrapeAux site fuel start acc).2).get? i = some (start + 12 * i) := by
  intro fuel
  induction fuel with
  | zero =>
    intro start acc i h
    rw [scrapeAux_zero] at h
    simp at h
  | succ fuel ih =>
    intro start acc i h
    cases hn : site start with
    | none =>
      rw [scrapeAux_skip site fuel start acc hn] at h ⊢
      cases i with
      | zero => simp
      | succ j =>
        simp only [List.length_cons, Nat.add_lt_add_iff_right] at h
        simp only [List.get?_cons_succ]
        rw [ih (start + 12) acc j h]
        congr 1
        ring
    | some page =>
      by_cases hr : page.rows = []
      · rw [scrapeAux_empty site fuel start acc page hn hr] at h ⊢
        simp only [List.length_singleton] at h
        interval_cases i
        simp
      · cases he : extractAll page.rows with
        | none =>
          rw [scrapeAux_err site fuel start acc page hn hr he] at h ⊢
          simp only [List.length_singleton] at h
          interval_cases i
          simp
        | some recs =>
          cases hb : page.nextBtn with
          | true =>
            rw [scrapeAux_next site fuel start acc page recs hn hr he hb] at h ⊢
            cases i with
            | zero => simp
            | succ j =>
              simp only [List.length_cons, Nat.add_lt_add_iff_right] at h
              simp only [List.get?_cons_succ]
              rw [ih (start + 12) (acc ++ recs) j h]
              congr 1
              ring
          | false =>
            rw [scrapeAux_last site fuel start acc page recs hn hr he hb] at h ⊢
            simp only [List.length_singleton] at h
            interval_cases i
            simp

theorem extractAll_mem :
    ∀ rows recs, extractAll rows = some recs →
      ∀ r ∈ recs, ∃ row ∈ rows, extractRecord row = some r := by
  intro rows
  induction rows with
  | nil =>
    intro recs h r hr
    simp only [extractAll, Option.some.injEq] at h
    subst h
    simp at hr
  | cons row0 rest ih =>
    intro recs h r hr
    unfold extractAll at h
    cases h0 : extractRecord row0 with
    | none => rw [h0] at h; simp at h
    | some rec0 =>
      rw [h0] at h
      cases hrest : extractAll rest with
      | none => rw [hrest] at h; simp at h
      | some recs0 =>
        rw [hrest] at h
        simp only [Option.some.injEq] at h
        subst h
        rcases List.mem_cons.mp hr with h1 | h2
        · exact ⟨row0, List.mem_cons_self row0 rest, h1 ▸ h0⟩
        · obtain ⟨row, hm, he⟩ := ih recs0 hrest r h2
          exact ⟨row, List.mem_cons_of_mem row0 hm, he⟩

theorem scrapeAux_ok_mem (site : Nat → Option Page) :
    ∀ fuel start acc recs, (scrapeAux site fuel start acc).1 = WalkResult.ok recs →
      ∀ r ∈ recs, r ∈ acc ∨ ∃ row, extractRecord row = some r := by
  intro fuel
  induction fuel with
  | zero =>
    intro start acc recs h
    rw [scrapeAux_zero] at h
    simp at h
  | succ fuel ih =>
    intro start acc recs h r hr
    cases hn : site start with
    | none =>
      rw [scrapeAux_skip site fuel start acc hn] at h
      exact ih (start + 12) acc recs h r hr
    | some page =>
      by_cases hrows : page.rows = []
      · rw [scrapeAux_empty site fuel start acc page hn hrows] at h
        simp only [WalkResult.ok.injEq] at h
        subst h
        exact Or.inl hr
      · cases he : extractAll page.rows with
        | none =>
          rw [scrapeAux_err site fuel start acc page hn hrows he] at h
          simp at h
        | some newRecs =>
          cases hb : page.nextBtn with
          | true =>
            rw [scrapeAux_next site fuel start acc page newRecs hn hrows he hb] at h
            rcases ih (start + 12) (acc ++ newRecs) recs h r hr with hmem | hex
            · rcases List.mem_append.mp hmem with h1 | h2
              · exact Or.inl h1
              · obtain ⟨row, _, hrow⟩ := extractAll_mem page.rows newRecs he r h2
                exact Or.inr ⟨row, hrow⟩
            · exact Or.inr hex
          | false =>
            rw [scrapeAux_last site fuel start acc page newRecs hn hrows he hb] at h
            simp only [WalkResult.ok.injEq] at h
            subst h
            rcases List.mem_append.mp hr with h1 | h2
            · exact Or.inl h1
            · obtain ⟨row, _, hrow⟩ := extractAll_mem page.rows newRecs he r h2
              exact Or.inr ⟨row, hrow⟩

theorem extractRecord_eq_some (row : Row) (rec : Record)
    (h : extractRecord row = some rec) :
    ∃ t href c0 c1 rest,
      row.titleTag = some t ∧ t.href = some href ∧
      row.generalCols = c0 :: c1 :: rest ∧
      rec = ⟨row.entityId, pyStrip t.text, urljoin BASE_URL href,
             c0.hasYes, c1.hasYes, row.keyTags.map pyStrip⟩ := by
  obtain ⟨eid, tt, gcols, ktags⟩ := row
  cases tt with
  | none => simp [extractRecord] at h
  | some t =>
    obtain ⟨ttext, thref⟩ := t
    cases thref with
    | none => simp [extractRecord] at h
    | some href =>
      cases gcols with
      | nil => simp [extractRecord] at h
      | cons c0 tl =>
        cases tl with
        | nil => simp [extractRecord] at h
        | cons c1 rest =>
          simp only [extractRecord, Option.some.injEq] at h
          exact ⟨⟨ttext, some href⟩, href, c0, c1, rest, rfl, rfl, rfl, h.symm⟩

theorem extractRecord_none_iff (row : Row) :
    extractRecord row = none ↔
      (row.titleTag = none ∨ (∃ t, row.titleTag = some t ∧ t.href = none) ∨
        row.generalCols.length < 2) := by
  unfold extractRecord
  cases ht : row.titleTag with
  | none => simp [ht]
  | some t =>
    cases hh : t.href with
    | none => simp [ht, hh]
    | some href =>
      cases hg : row.generalCols with
      | nil => simp [ht, hh, hg]
      | cons c0 tl =>
        cases tl with
        | nil => simp [ht, hh, hg]
        | cons c1 rest =>
          simp [ht, hh, hg]

theorem scrapeAux_no_timeout (site : Nat → Option Page) :
    ∀ fuel k start acc page, site (start + 12 * k) = some page → page.rows = [] →
      k < fuel → (scrapeAux site fuel start acc).1 ≠ WalkResult.timeout := by
  intro fuel
  induction fuel with
  | zero => intro k start acc page _ _ hk; omega
  | succ fuel ih =>
    intro k start acc page hk hrows hkf
    cases k with
    | zero =>
      simp only [Nat.mul_zero, Nat.add_zero] at hk
      rw [scrapeAux_empty site fuel start acc page hk hrows]
      simp
    | succ j =>
      cases hn : site start with
      | none =>
        rw [scrapeAux_skip site fuel start acc hn]
        have hk2 : site (start + 12 + 12 * j) = some page := by
          have : start + 12 + 12 * j = start + 12 * (j + 1) := by ring
          rw [this]
          exact hk
        exact ih j (start + 12) acc page hk2 hrows (by omega)
      | some p =>
        by_cases hr : p.rows = []
        · rw [scrapeAux_empty site fuel start acc p hn hr]
          simp
        · cases he : extractAll p.rows with
          | none =>
            rw [scrapeAux_err site fuel start acc p hn hr he]
            simp
          | some recs =>
            cases hb : p.nextBtn with
            | true =>
              rw [scrapeAux_next site fuel start acc p recs hn hr he hb]
              have hk2 : site (start + 12 + 12 * j) = some page := by
                have : start + 12 + 12 * j = start + 12 * (j + 1) := by ring
                rw [this]
                exact hk
              exact ih j (start + 12) (acc ++ recs) page hk2 hrows (by omega)
            | false =>
              rw [scrapeAux_last site fuel start acc p recs hn hr he hb]
              simp

theorem scrapeAux_all_fail_timeout (site : Nat → Option Page) :
    ∀ fuel start acc, (∀ n, start ≤ n → site n = none) →
      (scrapeAux site fuel start acc).1 = WalkResult.timeout := by
  intro fuel
  induction fuel with
  | zero => intro start acc _; rw [scrapeAux_zero]
  | succ fuel ih =>
    intro start acc hfail
    rw [scrapeAux_skip site fuel start acc (hfail start le_rfl)]
    exact ih (start + 12) acc (fun n hn => hfail n (by omega))

/-! ## Claim theorems -/

/-- Claim C3: for every URL, the page fetcher makes exactly
`min(1 + consecutive failures, 3)` retrieval attempts, returns the markup
of the first successful attempt, and after 3 consecutive failures returns
the failure signal `none` instead of an escaping exception. -/
theorem fetch_page_retry_budget (net : Nat → Option String) :
    (fetch_page net).2 = min (1 + consecFailures net 0 3) 3 ∧
    (consecFailures net 0 3 < 3 →
      (fetch_page net).1 = net (consecFailures net 0 3)) ∧
    (consecFailures net 0 3 = 3 → (fetch_page net).1 = none) := by
  refine ⟨?_, ?_, ?_⟩
  · have h := fetchAux_attempts net 3 0
    rw [Nat.add_comm 1 (consecFailures net 0 3)]
    exact h
  · intro h
    have hs := fetchAux_first_success net 3 0 h
    simpa using hs
  · intro h
    exact fetchAux_fail net 3 0 h

/-- Witness for C3: with one initial failure the fetcher makes 2 attempts
and returns the markup of attempt 1. -/
theorem fetch_page_retry_budget_witness :
    (fetch_page c3net).2 = 2 ∧ (fetch_page c3net).1 = some "page" :=
  ⟨(fetch_page_retry_budget c3net).1,
   (fetch_page_retry_budget c3net).2.1 (by decide)⟩

/-- Claim C4: the visited pagination offsets start at 0 and increase by
exactly 12 between consecutive visits; a failed fetch still advances the
offset and contributes no records (the iteration is exactly the skip to
the next offset). -/
theorem walk_offset_progress (site : Nat → Option Page) (fuel : Nat) :
    (∀ h0 : 0 < ((scrape_individual_tests site fuel).2).length,
      ((scrape_individual_tests site fuel).2).get ⟨0, h0⟩ = 0) ∧
    (∀ i (h1 : i < ((scrape_individual_tests site fuel).2).length)
        (h2 : i + 1 < ((scrape_individual_tests site fuel).2).length),
      ((scrape_individual_tests site fuel).2).get ⟨i + 1, h2⟩ =
        ((scrape_individual_tests site fuel).2).get ⟨i, h1⟩ + 12) ∧
    (∀ (f start : Nat) (acc : List Record), site start = none →
      scrapeAux site (f + 1) start acc =
        ((scrapeAux site f (start + 12) acc).1,
          start :: (scrapeAux site f (start + 12) acc).2)) := by
  unfold scrape_individual_tests
  refine ⟨?_, ?_, ?_⟩
  · intro h0
    have h := scrapeAux_vis_get? site fuel 0 [] 0 h0
    rw [List.get?_eq_get h0] at h
    simpa using h
  · intro i h1 h2
    have ha := scrapeAux_vis_get? site fuel 0 [] i h1
    have hb := scrapeAux_vis_get? site fuel 0 [] (i + 1) h2
    rw [List.get?_eq_get h1] at ha
    rw [List.get?_eq_get h2] at hb
    simp only [Option.some.injEq] at ha hb
    rw [ha, hb]
    ring
  · intro f start acc hn
    exact scrapeAux_skip site f start acc hn

/-- Witness for C4: on a permanently failing site with fuel 2, the visited
offsets are 0 then 12, and one failing iteration is exactly the skip. -/
theorem walk_offset_progress_witness :
    ((scrape_individual_tests c4site 2).2).get ⟨0, by decide⟩ = 0 ∧
    ((scrape_individual_tests c4site 2).2).get ⟨1, by decide⟩ =
      ((scrape_individual_tests c4site 2).2).get ⟨0, by decide⟩ + 12 ∧
    scrapeAux c4site 1 0 [] =
      ((scrapeAux c4site 0 12 []).1, 0 :: (scrapeAux c4site 0 12 []).2) :=
  ⟨(walk_offset_progress c4site 2).1 (by decide),
   (walk_offset_progress c4site 2).2.1 0 (by decide) (by decide),
   (walk_offset_progress c4site 2).2.2 0 0 [] rfl⟩

/-- Claim C5: if some offset `12 * k` yields a successfully fetched page
with zero matching rows, the walk terminates within `k + 1` iterations,
whatever the pagination-control markup of any page. -/
theorem walk_terminates_on_empty_rows (site : Nat → Option Page) (k fuel : Nat)
    (page : Page) (hk : site (12 * k) = some page) (hrows : page.rows = [])
    (hf : k < fuel) :
    (scrape_individual_tests site fuel).1 ≠ WalkResult.timeout := by
  unfold scrape_individual_tests
  have hk0 : site (0 + 12 * k) = some page := by simpa using hk
  exact scrapeAux_no_timeout site fuel k 0 [] page hk0 hrows hf

/-- Witness for C5: a site whose offset-0 page has zero rows terminates
the walk within one iteration. -/
theorem walk_terminates_on_empty_rows_witness :
    (scrape_individual_tests c5site 1).1 ≠ WalkResult.timeout :=
  walk_terminates_on_empty_rows c5site 0 1 ⟨[], false⟩ rfl rfl (by decide)

/-- Claim C10: when the fetcher fails for every offset from some point on
and the walk is at that point, the loop never terminates — for every fuel
bound it is still running — because both termination checks are reached
only on successfully fetched pages; in particular a site failing at every
offset makes `scrape_individual_tests` run forever. -/
theorem walk_diverges_on_permanent_failure :
    (∀ (site : Nat → Option Page) (start : Nat),
      (∀ n, start ≤ n → site n = none) →
      ∀ (fuel : Nat) (acc : List Record),
        (scrapeAux site fuel start acc).1 = WalkResult.timeout) ∧
    (∀ site : Nat → Option Page, (∀ n, site n = none) →
      ∀ fuel, (scrape_individual_tests site fuel).1 = WalkResult.timeout) := by
  constructor
  · intro site start hfail fuel acc
    exact scrapeAux_all_fail_timeout site fuel start acc hfail
  · intro site hfail fuel
    exact scrapeAux_all_fail_timeout site fuel 0 [] (fun n _ => hfail n)

/-- Witness for C10: the all-failing site is still running after 5
iterations. -/
theorem walk_diverges_on_permanent_failure_witness :
    (scrape_individual_tests c10site 5).1 = WalkResult.timeout :=
  walk_diverges_on_permanent_failure.2 c10site (fun _ => rfl) 5

/-- Claim C7: on any row whose mandatory elements are present,
`remoteTesting` is exactly whether the first general-info cell carries the
positive marker and `adaptiveIrt` exactly whether the second does. -/
theorem capability_columns (row : Row) (t : TitleTag) (href : String)
    (c0 c1 : GeneralCol) (rest : List GeneralCol)
    (ht : row.titleTag = some t) (hh : t.href = some href)
    (hc : row.generalCols = c0 :: c1 :: rest) :
    ∃ rec, extractRecord row = some rec ∧
      rec.remoteTesting = c0.hasYes ∧ rec.adaptiveIrt = c1.hasYes := by
  obtain ⟨eid, tt, gcols, ktags⟩ := row
  dsimp only at ht hc
  subst ht
  subst hc
  obtain ⟨ttext, thref⟩ := t
  dsimp only at hh
  subst hh
  exact ⟨_, rfl, rfl, rfl⟩

/-- Witness for C7: a row with the first marker present and the second
absent yields `remoteTesting = true` and `adaptiveIrt = false`. -/
theorem capability_columns_witness :
    ∃ rec, extractRecord c7row = some rec ∧
      rec.remoteTesting = true ∧ rec.adaptiveIrt = false :=
  capability_columns c7row ⟨"Sample", some "/s"⟩ "/s" ⟨true⟩ ⟨false⟩ [] rfl rfl rfl

/-- Claim C8: `testTypes` is the trimmed text of the row's key-marker
elements in document order with duplicates kept, and the CSV cell for the
record is their comma join. -/
theorem test_types_order_and_join (row : Row) (rec : Record)
    (he : extractRecord row = some rec) :
    rec.testTypes = row.keyTags.map pyStrip ∧
    (recordToCsv rec).testTypes =
      String.intercalate "," (row.keyTags.map pyStrip) := by
  obtain ⟨t, href, c0, c1, rest, ht, hh, hc, hrec⟩ := extractRecord_eq_some row rec he
  subst hrec
  exact ⟨rfl, rfl⟩

/-- Witness for C8: tags A, B, A give `testTypes = ["A", "B", "A"]` and
the CSV cell `"A,B,A"`. -/
theorem test_types_order_and_join_witness :
    c8rec.testTypes = ["A", "B", "A"] ∧
    (recordToCsv c8rec).testTypes = "A,B,A" :=
  test_types_order_and_join c8row c8rec (by rfl)

theorem jStrs_map (l : List String) : jStrs (l.map J.str) = some l := by
  induction l with
  | nil => rfl
  | cons s rest ih => simp [jStrs, ih]

theorem jToRecord_recordToJ (r : Record) : jToRecord (recordToJ r) = some r := by
  obtain ⟨eid, n, u, rt, ai, ts⟩ := r
  cases eid with
  | none => simp [recordToJ, jToRecord, jToEntityId, jStrs_map]
  | some s => simp [recordToJ, jToRecord, jToEntityId, jStrs_map]

theorem jRecords_map (rs : List Record) :
    jRecords (rs.map recordToJ) = some rs := by
  induction rs with
  | nil => rfl
  | cons r rest ih => simp [jRecords, jToRecord_recordToJ, ih]

/-- Claim C9: decoding the document output recovers the result set
field-by-field, and the table output holds the same records in the same
order with every field preserved except `testTypes`, which becomes the
comma join of the original list. -/
theorem output_round_trip (rs : List Record) :
    decodeDoc (encodeDoc rs) = some rs ∧
    (tableOutput rs).length = rs.length ∧
    (∀ i (h1 : i < (tableOutput rs).length) (h2 : i < rs.length),
      ((tableOutput rs).get ⟨i, h1⟩).entityId = (rs.get ⟨i, h2⟩).entityId ∧
      ((tableOutput rs).get ⟨i, h1⟩).name = (rs.get ⟨i, h2⟩).name ∧
      ((tableOutput rs).get ⟨i, h1⟩).url = (rs.get ⟨i, h2⟩).url ∧
      ((tableOutput rs).get ⟨i, h1⟩).remoteTesting = (rs.get ⟨i, h2⟩).remoteTesting ∧
      ((tableOutput rs).get ⟨i, h1⟩).adaptiveIrt = (rs.get ⟨i, h2⟩).adaptiveIrt ∧
      ((tableOutput rs).get ⟨i, h1⟩).testTypes =
        String.intercalate "," ((rs.get ⟨i, h2⟩).testTypes)) := by
  refine ⟨?_, by simp [tableOutput], ?_⟩
  · simp only [decodeDoc, encodeDoc]
    exact jRecords_map rs
  · intro i h1 h2
    have hg : (tableOutput rs).get ⟨i, h1⟩ = recordToCsv (rs.get ⟨i, h2⟩) := by
      simp [tableOutput, List.get_eq_getElem, List.getElem_map]
    rw [hg]
    exact ⟨rfl, rfl, rfl, rfl, rfl, rfl⟩

/-- Witness for C9: the one-record result set round-trips through the
document form and its CSV cell is the comma join. -/
theorem output_round_trip_witness :
    decodeDoc (encodeDoc c9data) = some c9data ∧
    (tableOutput c9data).length = c9data.length ∧
    ((tableOutput c9data).get ⟨0, by decide⟩).testTypes = "A,B" :=
  ⟨(output_round_trip c9data).1, (output_round_trip c9data).2.1,
   ((output_round_trip c9data).2.2 0 (by decide) (by decide)).2.2.2.2.2⟩

/-- Claim C1 counterexample: a successful run over a page whose only row
has a whitespace-only title link text produces a record whose `name` is
the empty string — the non-empty-name invariant fails on the code, which
applies `strip()` but never checks the result. -/
theorem record_invariants_counterexample :
    (scrape_individual_tests blankTitleSite 1).1 = WalkResult.ok [blankTitleRec] ∧
    blankTitleRec.name = "" := ⟨by rfl, rfl⟩

/-- Claim C1 (amended): every record of a successful run has a
syntactically absolute `url` and a `testTypes` list (possibly empty, never
absent); its `name` is the stripped text of its row's title link — which
is non-empty exactly when that stripped text is, as the code enforces no
non-emptiness. -/
theorem record_invariants (site : Nat → Option Page) (fuel : Nat)
    (recs : List Record)
    (h : (scrape_individual_tests site fuel).1 = WalkResult.ok recs) :
    ∀ rec ∈ recs, isAbsoluteUrl rec.url = true ∧
      ∃ row t, row.titleTag = some t ∧ extractRecord row = some rec ∧
        rec.name = pyStrip t.text ∧ rec.testTypes = row.keyTags.map pyStrip := by
  intro rec hmem
  rcases scrapeAux_ok_mem site fuel 0 [] recs h rec hmem with hacc | ⟨row, hrow⟩
  · simp at hacc
  · obtain ⟨t, href, c0, c1, rest, ht, hh, hc, hrec⟩ :=
      extractRecord_eq_some row rec hrow
    subst hrec
    exact ⟨isAbsoluteUrl_urljoin href, row, t, ht, hrow, rfl, rfl⟩

/-- Witness for C1 (amended): the record of a well-formed one-row run has
an absolute URL and its name is the stripped title text. -/
theorem record_invariants_witness :
    isAbsoluteUrl c1rec.url = true ∧
    ∃ row t, row.titleTag = some t ∧ extractRecord row = some c1rec ∧
      c1rec.name = pyStrip t.text ∧ c1rec.testTypes = row.keyTags.map pyStrip :=
  record_invariants c1site 1 [c1rec] (by rfl) c1rec (by simp)

/-- Claim C2 counterexample: on a catalog whose offset-0 page has exactly
two rows and no next-page control, the walk returns the two records but
visits offset 0 only — offset 12 is never fetched (here its fetch would
even fail), so termination is via the missing next-page control, not via
a zero-rows check on offset 12, and that control's absence is reachable. -/
theorem one_page_counterexample :
    scrape_individual_tests c2site 3 = (WalkResult.ok [c2rec1, c2rec2], [0]) ∧
    12 ∉ (scrape_individual_tests c2site 3).2 ∧
    c2site 12 = none := by
  refine ⟨by rfl, by decide, rfl⟩

/-- Claim C2 (amended): for a catalog whose first page (offset 0) has
exactly 2 rows and no next-page navigation control, the walk visits
offset 0 only, returns exactly 2 records, and terminates via the missing
next-page control on offset 0; the zero-matching-rows check on offset 12
is never reached. -/
theorem one_page_two_rows (site : Nat → Option Page) (r1 r2 : Row)
    (rec1 rec2 : Record) (fuel : Nat)
    (hs : site 0 = some ⟨[r1, r2], false⟩)
    (h1 : extractRecord r1 = some rec1) (h2 : extractRecord r2 = some rec2) :
    scrape_individual_tests site (fuel + 1) = (WalkResult.ok [rec1, rec2], [0]) := by
  unfold scrape_individual_tests
  have he : extractAll [r1, r2] = some [rec1, rec2] := by
    simp [extractAll, h1, h2]
  have hstep := scrapeAux_last site fuel 0 [] ⟨[r1, r2], false⟩ [rec1, rec2]
    hs (by simp) he rfl
  simpa using hstep

/-- Witness for C2 (amended): the concrete two-row one-page catalog yields
the two records with visited offsets `[0]`. -/
theorem one_page_two_rows_witness :
    scrape_individual_tests c2site 1 = (WalkResult.ok [c2rec1, c2rec2], [0]) :=
  one_page_two_rows c2site c2row1 c2row2 c2rec1 c2rec2 0 rfl (by rfl) (by rfl)

/-- Claim C6 counterexample: a row whose title cell and link (with href)
are both present but which has no general-info cells still makes the Row
Extractor fail — so the extractor does not fail *only* when the title cell
or link is absent. -/
theorem extraction_failure_counterexample :
    noColsRow.titleTag = some ⟨"Gamma", some "/g"⟩ ∧
    (⟨"Gamma", some "/g"⟩ : TitleTag).href = some "/g" ∧
    extractRecord noColsRow = none := ⟨rfl, rfl, rfl⟩

/-- Claim C6 (amended): the Row Extractor fails exactly when the title
link is absent, its `href` attribute is absent, or the row has fewer than
two general-info cells; such a failure is fatal — it turns the whole walk
into the error outcome — while a page-level fetch failure is merely
skipped, the walk continuing at the next offset. -/
theorem extraction_failure_modes :
    (∀ row : Row, extractRecord row = none ↔
      (row.titleTag = none ∨ (∃ t, row.titleTag = some t ∧ t.href = none) ∨
        row.generalCols.length < 2)) ∧
    (∀ (site : Nat → Option Page) (fuel start : Nat) (acc : List Record)
        (page : Page),
      site start = some page → page.rows ≠ [] → extractAll page.rows = none →
      (scrapeAux site (fuel + 1) start acc).1 = WalkResult.err) ∧
    (∀ (site : Nat → Option Page) (fuel start : Nat) (acc : List Record),
      site start = none →
      (scrapeAux site (fuel + 1) start acc).1 =
        (scrapeAux site fuel (start + 12) acc).1) := by
  refine ⟨extractRecord_none_iff, ?_, ?_⟩
  · intro site fuel start acc page hp hr he
    rw [scrapeAux_err site fuel start acc page hp hr he]
  · intro site fuel start acc hn
    rw [scrapeAux_skip site fuel start acc hn]

/-- Witness for C6 (amended): the cell-less row fails extraction, a page
containing it drives the walk to the error outcome, and a failed fetch
skips to offset 12. -/
theorem extraction_failure_modes_witness :
    extractRecord noColsRow = none ∧
    (scrapeAux c6site 1 0 []).1 = WalkResult.err ∧
    (scrapeAux c6failSite 1 0 []).1 = (scrapeAux c6failSite 0 12 []).1 :=
  ⟨(extraction_failure_modes.1 noColsRow).mpr (Or.inr (Or.inr (by decide))),
   extraction_failure_modes.2.1 c6site 0 0 [] ⟨[noColsRow], true⟩ rfl
     (by decide) (by rfl),
   extraction_failure_modes.2.2 c6failSite 0 0 [] rfl⟩
